import Mathlib

/-!
# Attendance dashboard (`app.js`)

A shallow embedding of the attendance dashboard script: the CSV parser
`processCSV`, the polling routine `fetchData` with its offline fallback, the
renderer entry points `updateUI`, `renderTable` and `filterStudents`, the
deletion handler `deleteStudent` and the export handler.

JavaScript strings are lists of characters.  The mutable globals (`students`,
`isOnline`), the `localStorage` entry `"attendanceData"` and the DOM nodes the
script writes to are the fields of `AppState`; every call of a rendering or
notification routine is also appended to `AppState.trace`.

A run of `fetchData` is taken as one step, with the result of the network call
as its argument: the theorems speak of fetches that do not overlap.  Writes to
`localStorage` are taken to succeed, and the timers that remove a notification
are left out.
-/

namespace IOTMini

/-- A JavaScript string, as the list of its characters. -/
abbrev Str := List Char

/-! ## String primitives -/

/-- The method `String.prototype.toLowerCase`.  The Unicode case tables are not
part of the script, so the mapping is a parameter of the development; the two
laws say that the empty string, and only the empty string, maps to the empty
string. -/
structure CaseMapping where
  /-- The mapping itself. -/
  toLowerCase : Str → Str
  /-- The empty string is mapped to itself. -/
  lower_nil : toLowerCase [] = []
  /-- Only the empty string is mapped to the empty string. -/
  nil_of_lower : ∀ s, toLowerCase s = [] → s = []

/-- The case mapping on texts of ASCII characters: `A`-`Z` go to `a`-`z`, every
other character is kept. -/
def asciiCase : CaseMapping where
  toLowerCase := List.map Char.toLower
  lower_nil := rfl
  nil_of_lower := fun s h => by simpa using h

/-- The line feed character. -/
abbrev newline : Char := Char.ofNat 0x0A

/-- The method `s.split(sep)` for a one-character separator: the pieces between
the occurrences of `sep`, the empty pieces included. -/
def split (sep : Char) : Str → List Str
  | [] => [[]]
  | c :: cs =>
    if c = sep then [] :: split sep cs
    else
      match split sep cs with
      | [] => [[c]]
      | w :: ws => (c :: w) :: ws

/-- White space and line terminators of ECMAScript, the characters that
`String.prototype.trim` strips. -/
def isWhiteSpace (c : Char) : Bool :=
  c.toNat = 0x09 || c.toNat = 0x0A || c.toNat = 0x0B || c.toNat = 0x0C ||
  c.toNat = 0x0D || c.toNat = 0x20 || c.toNat = 0xA0 || c.toNat = 0x1680 ||
  (0x2000 ≤ c.toNat && c.toNat ≤ 0x200A) ||
  c.toNat = 0x2028 || c.toNat = 0x2029 || c.toNat = 0x202F ||
  c.toNat = 0x205F || c.toNat = 0x3000 || c.toNat = 0xFEFF

/-- The method `s.trim()`: white space is dropped at both ends. -/
def trim (s : Str) : Str :=
  ((s.dropWhile isWhiteSpace).reverse.dropWhile isWhiteSpace).reverse

/-- The method `s.includes(t)`: `t` occurs in `s` as a contiguous piece. -/
def includes : Str → Str → Bool
  | [], t => t.isEmpty
  | c :: cs, t => t.isPrefixOf (c :: cs) || includes cs t

/-- The operator `a || b` on strings: `b` when `a` is the empty string. -/
def orElse (a b : Str) : Str := if a = [] then b else a

/-! ## Records -/

/-- One element of the global `students`: the object literal built in
`processCSV`. -/
structure Student where
  /-- The first column. -/
  uid : Str
  /-- The second column. -/
  name : Str
  /-- The third column. -/
  contact : Str
  /-- The fourth column, lower-cased. -/
  attendance : Str
deriving DecidableEq

/-! ## JSON text of a record list -/

/-- The double quote character. -/
abbrev dquote : Char := Char.ofNat 0x22

/-- The backslash character. -/
abbrev backslash : Char := Char.ofNat 0x5C

/-- A lower-case hexadecimal digit. -/
def hexDigit (n : Nat) : Char :=
  if n < 10 then Char.ofNat (48 + n) else Char.ofNat (87 + n)

/-- The escape `JSON.stringify` writes for one character of a string. -/
def escapeChar (c : Char) : Str :=
  if c = dquote then [backslash, dquote]
  else if c = backslash then [backslash, backslash]
  else if c.toNat = 0x08 then [backslash, 'b']
  else if c.toNat = 0x0C then [backslash, 'f']
  else if c.toNat = 0x0A then [backslash, 'n']
  else if c.toNat = 0x0D then [backslash, 'r']
  else if c.toNat = 0x09 then [backslash, 't']
  else if c.toNat < 0x20 then
    [backslash, 'u', '0', '0', hexDigit (c.toNat / 16), hexDigit (c.toNat % 16)]
  else [c]

/-- The text `JSON.stringify` writes for a string. -/
def quoteJSONString (s : Str) : Str :=
  dquote :: (s.flatMap escapeChar ++ [dquote])

/-- The text `JSON.stringify` writes for one record: the four keys in the
order of the object literal of `processCSV`. -/
def stringifyStudent (r : Student) : Str :=
  "\x7b\"uid\":".toList ++ quoteJSONString r.uid ++
  ",\"name\":".toList ++ quoteJSONString r.name ++
  ",\"contact\":".toList ++ quoteJSONString r.contact ++
  ",\"attendance\":".toList ++ quoteJSONString r.attendance ++ "\x7d".toList

/-- The texts of the elements, with `sep` between two neighbours. -/
def joinWith (sep : Char) : List Str → Str
  | [] => []
  | [x] => x
  | x :: y :: rest => x ++ sep :: joinWith sep (y :: rest)

/-- The call `JSON.stringify(students)` on a list of records. -/
def jsonStringify (l : List Student) : Str :=
  '[' :: (joinWith ',' (l.map stringifyStudent) ++ [']'])

/-- The value of a hexadecimal digit. -/
def hexValue (c : Char) : Option Nat :=
  if 48 ≤ c.toNat ∧ c.toNat ≤ 57 then some (c.toNat - 48)
  else if 97 ≤ c.toNat ∧ c.toNat ≤ 102 then some (c.toNat - 87)
  else if 65 ≤ c.toNat ∧ c.toNat ≤ 70 then some (c.toNat - 55)
  else none

/-- The character a one-letter JSON escape stands for. -/
def unescape (e : Char) : Option Char :=
  if e = dquote then some dquote
  else if e = backslash then some backslash
  else if e = '/' then some '/'
  else if e = 'b' then some (Char.ofNat 0x08)
  else if e = 'f' then some (Char.ofNat 0x0C)
  else if e = 'n' then some (Char.ofNat 0x0A)
  else if e = 'r' then some (Char.ofNat 0x0D)
  else if e = 't' then some (Char.ofNat 0x09)
  else none

/-- Reads a JSON string whose opening quote has been consumed: the string and
the text after its closing quote.  An escape that names a surrogate code unit
has no counterpart in `Str` and is not read. -/
def readString : Str → Option (Str × Str)
  | [] => none
  | c :: rest =>
    if c = dquote then some ([], rest)
    else if c = backslash then
      match rest with
      | [] => none
      | e :: rest1 =>
        if e = 'u' then
          match rest1 with
          | a :: b :: x :: y :: rest2 =>
            match hexValue a, hexValue b, hexValue x, hexValue y with
            | some a, some b, some x, some y =>
              let v := ((a * 16 + b) * 16 + x) * 16 + y
              if 0xD800 ≤ v ∧ v ≤ 0xDFFF then none
              else (readString rest2).map (fun p => (Char.ofNat v :: p.1, p.2))
            | _, _, _, _ => none
          | _ => none
        else
          match unescape e with
          | none => none
          | some d => (readString rest1).map (fun p => (d :: p.1, p.2))
    else if c.toNat < 0x20 then none
    else (readString rest).map (fun p => (c :: p.1, p.2))

/-- Consumes the literal `lit` at the head of `s`. -/
def expect : Str → Str → Option Str
  | [], s => some s
  | _ :: _, [] => none
  | l :: lit, c :: s => if c = l then expect lit s else none

/-- Reads one record in the form `stringifyStudent` writes. -/
def readStudent (s : Str) : Option (Student × Str) :=
  (expect "\x7b\"uid\":\"".toList s).bind fun s1 =>
  (readString s1).bind fun uid =>
  (expect ",\"name\":\"".toList uid.2).bind fun s2 =>
  (readString s2).bind fun name =>
  (expect ",\"contact\":\"".toList name.2).bind fun s3 =>
  (readString s3).bind fun contact =>
  (expect ",\"attendance\":\"".toList contact.2).bind fun s4 =>
  (readString s4).bind fun attendance =>
  (expect "\x7d".toList attendance.2).map fun s5 =>
  (⟨uid.1, name.1, contact.1, attendance.1⟩, s5)

/-- Reads the records of a non-empty array after its opening bracket, up to
the end of the text; every record read uses one unit of `fuel`. -/
def readStudents : Nat → Str → Option (List Student)
  | 0, _ => none
  | fuel + 1, s =>
    match readStudent s with
    | none => none
    | some (r, rest) =>
      if rest = [']'] then some [r]
      else
        match rest with
        | [] => none
        | c :: rest1 =>
          if c = ',' then (readStudents fuel rest1).map (fun l => r :: l)
          else none

/-- The call `JSON.parse(savedData)` on the texts this script stores under
`"attendanceData"`, which are the texts `jsonStringify` writes.  On any other
text the result is `none`: there `JSON.parse` throws, or returns a value that
is not a list of records of this shape. -/
def jsonParse (s : Str) : Option (List Student) :=
  match s with
  | [] => none
  | c :: rest =>
    if c = '[' then
      if rest = [']'] then some [] else readStudents rest.length rest
    else none

/-! ## Application state -/

/-- The second argument of `showNotification`. -/
inductive Severity where
  | info
  | success
  | warning
  | error
deriving DecidableEq

/-- A call the script makes to one of its rendering or reporting routines. -/
inductive Effect where
  /-- The call `showNotification(message, type)`. -/
  | showNotification (message : Str) (type : Severity)
  /-- The call `updateUI()`. -/
  | updateUI
  /-- The call `renderTable(data)`. -/
  | renderTable (data : List Student)
  /-- The call `updateStatus(online)`. -/
  | updateStatus (online : Bool)
  /-- The call `console.error("Fetch error:", error)`. -/
  | consoleError
  /-- The download of the text built by the export handler. -/
  | download (csv : Str)
deriving DecidableEq

/-- The text of the `lastUpdated` element; the clock reading is left out. -/
inductive SyncLabel where
  | initial
  | updating
  | syncedAt
deriving DecidableEq

/-- The globals of the script, the storage entry and the DOM nodes it writes. -/
structure AppState where
  /-- The global `students`. -/
  students : List Student
  /-- The global `isOnline`. -/
  isOnline : Bool
  /-- The entry `localStorage["attendanceData"]`, `none` when it is absent. -/
  attendanceData : Option Str
  /-- The text of the element `lastUpdated`. -/
  lastUpdated : SyncLabel
  /-- The text of the element `presentCount`. -/
  presentCount : Nat
  /-- The text of the element `absentCount`. -/
  absentCount : Nat
  /-- The rows of the element `tableBody`. -/
  tableBody : List Student
  /-- The calls made so far, oldest first. -/
  trace : List Effect
deriving DecidableEq

/-- The state when the script is loaded: `students = []`, `isOnline = true`,
nothing stored, nothing rendered. -/
def AppState.start : AppState where
  students := []
  isOnline := true
  attendanceData := none
  lastUpdated := .initial
  presentCount := 0
  absentCount := 0
  tableBody := []
  trace := []

/-! ## The routines of the script -/

/-- The routine `showNotification(message, type)`: the notification is appended
to the notification centre. -/
def showNotification (message : Str) (type : Severity) (st : AppState) : AppState :=
  { st with trace := st.trace ++ [.showNotification message type] }

/-- The routine `updateStatus(online)`. -/
def updateStatus (online : Bool) (st : AppState) : AppState :=
  { st with trace := st.trace ++ [.updateStatus online] }

/-- The routine `renderTable(data)`: one table row per element of `data`. -/
def renderTable (data : List Student) (st : AppState) : AppState :=
  { st with tableBody := data, trace := st.trace ++ [.renderTable data] }

/-- The routine `updateUI()`: the two counters, then the table. -/
def updateUI (st : AppState) : AppState :=
  let present := (st.students.filter (fun s => s.attendance = "present".toList)).length
  let absent := st.students.length - present
  renderTable st.students
    { st with presentCount := present, absentCount := absent,
              trace := st.trace ++ [.updateUI] }

/-- The callback of `rows.slice(1).map` in `processCSV`: the record of one row. -/
def parseRow (L : CaseMapping) (row : Str) : Student :=
  let values := split ',' row
  { uid := orElse ((values.get? 0).elim [] trim) []
    name := orElse ((values.get? 1).elim [] trim) []
    contact := orElse ((values.get? 2).elim [] trim) []
    attendance :=
      orElse ((values.get? 3).elim [] (fun v => L.toLowerCase (trim v))) "absent".toList }

/-- The first statement of `processCSV`: the lines of the text whose trimmed
form is not empty. -/
def nonBlankRows (csv : Str) : List Str :=
  (split newline csv).filter (fun row => trim row ≠ [])

/-- The routine `processCSV(csv)`.  The result is `none` when `rows[0]` is
`undefined`, where `rows[0].split` throws; no state has been written then.
Otherwise the records of the rows after the first are stored under
`"attendanceData"` and returned. -/
def processCSV (L : CaseMapping) (csv : Str) (st : AppState) :
    Option (List Student × AppState) :=
  match nonBlankRows csv with
  | [] => none
  | _ :: rest =>
    let processed := rest.map (parseRow L)
    some (processed,
      { st with attendanceData := some (jsonStringify processed), lastUpdated := .syncedAt })

/-- What `await fetch(...)` gives: the call throws, or a response arrives with
its `ok` flag and body text. -/
inductive FetchOutcome where
  | rejected
  | response (ok : Bool) (body : Str)
deriving DecidableEq

/-- The fetch attempt failed: `fetch` threw, or the response is not `ok`. -/
def FetchOutcome.failed : FetchOutcome → Prop
  | .rejected => True
  | .response ok _ => ok = false

/-- The `try` block of `fetchData` after its first two statements: `none` when
an exception is thrown.  Every throwing statement precedes every write of the
block, so the handler starts from the state the block was entered in. -/
def fetchTry (L : CaseMapping) (net : FetchOutcome) (st : AppState) : Option AppState :=
  match net with
  | .rejected => none
  | .response ok body =>
    if !ok then none
    else
      match processCSV L body st with
      | none => none
      | some (newStudents, st1) =>
        let st2 :=
          if jsonStringify st1.students ≠ jsonStringify newStudents then
            showNotification "Attendance data updated!".toList .success
              (updateUI { st1 with students := newStudents })
          else st1
        some (updateStatus true { st2 with isOnline := true })

/-- The `catch` block of `fetchData`.  The result is `none` when the stored
text is not one this script wrote (see `jsonParse`). -/
def fetchCatch (st : AppState) : Option AppState :=
  let st1 := updateStatus false
    { st with isOnline := false, trace := st.trace ++ [.consoleError] }
  match st1.attendanceData with
  | none =>
    some (showNotification "Connection failed - no data available".toList .error st1)
  | some savedData =>
    if savedData = [] then
      some (showNotification "Connection failed - no data available".toList .error st1)
    else
      match jsonParse savedData with
      | none => none
      | some saved =>
        some (showNotification "Using offline data".toList .warning
          (updateUI { st1 with students := saved }))

/-- The routine `fetchData()`, run to completion with the given result of the
network call. -/
def fetchData (L : CaseMapping) (net : FetchOutcome) (st : AppState) : Option AppState :=
  let st1 := showNotification "Syncing with Google Sheets...".toList .info st
  let st2 := { st1 with lastUpdated := .updating }
  match fetchTry L net st2 with
  | some st3 => some st3
  | none => fetchCatch st2

/-- The routine `filterStudents()`, with the text of the search box. -/
def filterStudents (L : CaseMapping) (searchInput : Str) (st : AppState) : AppState :=
  let searchTerm := L.toLowerCase searchInput
  let filtered := st.students.filter (fun student =>
    includes (L.toLowerCase student.name) searchTerm ||
    includes (L.toLowerCase student.uid) searchTerm ||
    includes student.contact searchTerm)
  renderTable filtered st

/-- The routine `deleteStudent(uid)`, with the answer given to `confirm`. -/
def deleteStudent (confirmed : Bool) (uid : Str) (st : AppState) : AppState :=
  if confirmed then
    let students := st.students.filter (fun s => s.uid ≠ uid)
    showNotification "Student deleted".toList .success
      (updateUI { st with students := students,
                          attendanceData := some (jsonStringify students) })
  else st

/-- The text the export handler builds: the header line, then one line per
record. -/
def exportCSV (students : List Student) : Str :=
  students.foldl
    (fun csv student =>
      csv ++ (student.uid ++ ',' :: student.name ++ ',' :: student.contact ++
        ',' :: student.attendance ++ [newline]))
    "UID,Name,Contact,Attendance\n".toList

/-- The click handler of `exportBtn`. -/
def exportClick (st : AppState) : AppState :=
  if st.students.length = 0 then
    showNotification "No data to export".toList .warning st
  else
    showNotification "Data exported successfully".toList .success
      { st with trace := st.trace ++ [.download (exportCSV st.students)] }

/-! ## Conditions on exported records -/

/-- The line the export handler writes for a record, without its line feed. -/
def rowText (r : Student) : Str :=
  r.uid ++ ',' :: r.name ++ ',' :: r.contact ++ ',' :: r.attendance

/-- A field that survives the export and the parser unchanged: it holds no comma
and no line feed and has no white space at either end. -/
def plainField (f : Str) : Prop := ',' ∉ f ∧ newline ∉ f ∧ trim f = f

instance (f : Str) : Decidable (plainField f) := by
  unfold plainField
  infer_instance

/-- A record that survives the export and the parser unchanged: its four fields
are plain, and its attendance is not empty and is its own lower-case form. -/
def exportable (L : CaseMapping) (r : Student) : Prop :=
  plainField r.uid ∧ plainField r.name ∧ plainField r.contact ∧ plainField r.attendance ∧
  r.attendance ≠ [] ∧ L.toLowerCase r.attendance = r.attendance

instance (L : CaseMapping) (r : Student) : Decidable (exportable L r) := by
  unfold exportable
  infer_instance

/-! ## Sample data -/

/-- The two records of the scenario text. -/
def scenarioRecords : List Student :=
  [⟨"A1".toList, "Alice".toList, "555-1".toList, "present".toList⟩,
   ⟨"A2".toList, "Bob".toList, "555-2".toList, "absent".toList⟩]

/-- A list of three records. -/
def threeRecords : List Student :=
  scenarioRecords ++ [⟨"A3".toList, "Carol".toList, "555-3".toList, "present".toList⟩]

/-! ## Facts about the string primitives -/

theorem split_ne_nil (sep : Char) (s : Str) : split sep s ≠ [] := by
  cases s with
  | nil => simp [split]
  | cons c cs =>
    by_cases h : c = sep
    · simp [split, h]
    · cases hs : split sep cs <;> simp [split, h, hs]

/-- The pieces `split` returns, joined again with the separator, are the text. -/
theorem joinWith_split (sep : Char) (s : Str) : joinWith sep (split sep s) = s := by
  induction s with
  | nil => rfl
  | cons c cs ih =>
    by_cases h : c = sep
    · cases hs : split sep cs with
      | nil => exact absurd hs (split_ne_nil sep cs)
      | cons w ws =>
        rw [hs] at ih
        simp [split, h, hs, joinWith, ih]
    · cases hs : split sep cs with
      | nil => exact absurd hs (split_ne_nil sep cs)
      | cons w ws =>
        rw [hs] at ih
        cases ws with
        | nil =>
          simp only [joinWith] at ih
          simp [split, h, hs, joinWith, ih]
        | cons w2 ws =>
          simp only [joinWith] at ih
          simp [split, h, hs, joinWith, ih]

/-- No piece `split` returns holds the separator. -/
theorem not_mem_of_mem_split (sep : Char) (s w : Str) (hw : w ∈ split sep s) : sep ∉ w := by
  induction s generalizing w with
  | nil =>
    simp [split] at hw
    simp [hw]
  | cons c cs ih =>
    by_cases h : c = sep
    · simp only [split, h, if_true, List.mem_cons] at hw
      rcases hw with rfl | hw
      · simp
      · exact ih w hw
    · cases hs : split sep cs with
      | nil => exact absurd hs (split_ne_nil sep cs)
      | cons v vs =>
        simp only [split, h, if_false, hs, List.mem_cons] at hw
        rcases hw with rfl | hw
        · have hv : sep ∉ v := ih v (by simp [hs])
          intro hm
          rcases List.mem_cons.mp hm with e | e
          · exact h e.symm
          · exact hv e
        · exact ih w (by simp [hs, hw])

theorem split_of_not_mem (sep : Char) (w : Str) (h : sep ∉ w) : split sep w = [w] := by
  induction w with
  | nil => rfl
  | cons c cs ih =>
    have hc : c ≠ sep := fun e => h (by simp [e])
    have hcs : sep ∉ cs := fun e => h (List.mem_cons_of_mem _ e)
    simp [split, hc, ih hcs]

theorem split_append_sep (sep : Char) (w rest : Str) (h : sep ∉ w) :
    split sep (w ++ sep :: rest) = w :: split sep rest := by
  induction w with
  | nil => simp [split]
  | cons c cs ih =>
    have hc : c ≠ sep := fun e => h (by simp [e])
    have hcs : sep ∉ cs := fun e => h (List.mem_cons_of_mem _ e)
    simp [split, hc, ih hcs]

theorem trim_eq_nil_iff (s : Str) : trim s = [] ↔ ∀ c ∈ s, isWhiteSpace c = true := by
  unfold trim
  rw [List.reverse_eq_nil_iff, List.dropWhile_eq_nil_iff]
  constructor
  · intro h
    have h2 : s.dropWhile isWhiteSpace = [] := by
      by_contra hne
      obtain ⟨c, cs, hcs⟩ := List.exists_cons_of_ne_nil hne
      have hc : isWhiteSpace c = true := h c (by simp [hcs])
      have := List.head_dropWhile_not isWhiteSpace s hne
      simp [hcs] at this
      simp [this] at hc
    exact List.dropWhile_eq_nil_iff.mp h2
  · intro h
    have h2 : s.dropWhile isWhiteSpace = [] := List.dropWhile_eq_nil_iff.mpr h
    simp [h2]

theorem includes_iff (s t : Str) : includes s t = true ↔ t <:+: s := by
  induction s with
  | nil => simp [includes, List.isEmpty_iff]
  | cons c cs ih =>
    simp only [includes, Bool.or_eq_true, ih, List.isPrefixOf_iff_prefix, List.infix_cons_iff]


theorem mem_of_mem_split (sep : Char) (s w : Str) (hw : w ∈ split sep s) :
    ∀ c ∈ w, c ∈ s := by
  induction s generalizing w with
  | nil =>
    simp [split] at hw
    simp [hw]
  | cons c cs ih =>
    by_cases h : c = sep
    · simp only [split, h, if_true, List.mem_cons] at hw
      rcases hw with rfl | hw
      · simp
      · intro d hd
        exact List.mem_cons_of_mem _ (ih w hw d hd)
    · cases hs : split sep cs with
      | nil => exact absurd hs (split_ne_nil sep cs)
      | cons v vs =>
        simp only [split, h, if_false, hs, List.mem_cons] at hw
        rcases hw with rfl | hw
        · intro d hd
          rcases List.mem_cons.mp hd with e | e
          · simp [e]
          · exact List.mem_cons_of_mem _ (ih v (by simp [hs]) d e)
        · intro d hd
          exact List.mem_cons_of_mem _ (ih w (by simp [hs, hw]) d hd)

theorem trim_sublist (s : Str) : (trim s).Sublist s := by
  unfold trim
  have h1 : ((s.dropWhile isWhiteSpace).reverse.dropWhile isWhiteSpace).Sublist
      (s.dropWhile isWhiteSpace).reverse := List.dropWhile_sublist _
  have h2 := h1.reverse
  rw [List.reverse_reverse] at h2
  exact h2.trans (List.dropWhile_sublist _)

theorem dropWhile_eq_self_of_head (p : Char → Bool) (l : Str)
    (h : ∀ c, l.head? = some c → p c = false) : l.dropWhile p = l := by
  cases l with
  | nil => rfl
  | cons c cs => simp [List.dropWhile, h c rfl]

theorem head_dropWhile_false (p : Char → Bool) (l : Str) :
    ∀ c, (l.dropWhile p).head? = some c → p c = false := by
  induction l with
  | nil => simp
  | cons a l ih =>
    intro c hc
    by_cases ha : p a = true
    · rw [List.dropWhile_cons_of_pos ha] at hc
      exact ih c hc
    · rw [List.dropWhile_cons_of_neg ha] at hc
      simp at hc
      subst hc
      simpa using ha

theorem trim_trim (s : Str) : trim (trim s) = trim s := by
  have key : ∀ l : Str, (∀ c, l.head? = some c → isWhiteSpace c = false) →
      (∀ c, l.reverse.head? = some c → isWhiteSpace c = false) → trim l = l := by
    intro l h1 h2
    unfold trim
    rw [dropWhile_eq_self_of_head _ l h1, dropWhile_eq_self_of_head _ _ h2,
      List.reverse_reverse]
  apply key
  · intro c hc
    -- the head of `trim s` is the head of `s.dropWhile isWhiteSpace`
    have hpre : (trim s) <+: (s.dropWhile isWhiteSpace) := by
      unfold trim
      have := List.dropWhile_suffix isWhiteSpace (l := (s.dropWhile isWhiteSpace).reverse)
      have h2 := List.reverse_prefix.mpr this
      rwa [List.reverse_reverse] at h2
    obtain ⟨t, ht⟩ := hpre
    cases hts : trim s with
    | nil => rw [hts] at hc; simp at hc
    | cons a as =>
      rw [hts] at hc ht
      simp at hc
      subst hc
      apply head_dropWhile_false isWhiteSpace s
      rw [← ht]
      rfl
  · intro c hc
    have : (trim s).reverse = (s.dropWhile isWhiteSpace).reverse.dropWhile isWhiteSpace := by
      unfold trim
      rw [List.reverse_reverse]
    rw [this] at hc
    exact head_dropWhile_false _ _ c hc

theorem char_eq_of_toNat (c : Char) (n : Nat) (h : c.toNat = n) : c = Char.ofNat n := by
  rw [← h, Char.ofNat_toNat]

/-! ## Facts about the ASCII case mapping -/

theorem toLower_cases (c : Char) :
    c.toLower = c ∨ (65 ≤ c.toNat ∧ c.toNat ≤ 90 ∧ 97 ≤ c.toLower.toNat ∧ c.toLower.toNat ≤ 122) := by
  by_cases h : 65 ≤ c.toNat ∧ c.toNat ≤ 90
  · right
    obtain ⟨h1, h2⟩ := h
    refine ⟨h1, h2, ?_⟩
    generalize hn : c.toNat = n at h1 h2
    rw [char_eq_of_toNat c n hn]
    interval_cases n <;> decide
  · left
    unfold Char.toLower
    simp only [ge_iff_le]
    rw [if_neg h]

theorem toLower_toLower (c : Char) : c.toLower.toLower = c.toLower := by
  rcases toLower_cases c with h | ⟨_, _, h3, h4⟩
  · rw [h, h]
  · rcases toLower_cases c.toLower with h | ⟨h5, h6, _, _⟩
    · exact h
    · omega

theorem isWhiteSpace_toLower (c : Char) : isWhiteSpace c.toLower = isWhiteSpace c := by
  rcases toLower_cases c with h | ⟨h1, h2, h3, h4⟩
  · rw [h]
  · have a : isWhiteSpace c = false := by
      unfold isWhiteSpace
      simp
      omega
    have b : isWhiteSpace c.toLower = false := by
      unfold isWhiteSpace
      simp
      omega
    rw [a, b]

theorem dropWhile_map_toLower (s : Str) :
    (s.map Char.toLower).dropWhile isWhiteSpace = (s.dropWhile isWhiteSpace).map Char.toLower := by
  induction s with
  | nil => rfl
  | cons c cs ih =>
    by_cases h : isWhiteSpace c = true
    · have h2 : isWhiteSpace c.toLower = true := by rw [isWhiteSpace_toLower]; exact h
      simp [List.dropWhile, h, h2, ih]
    · have h2 : ¬ isWhiteSpace c.toLower = true := by rw [isWhiteSpace_toLower]; exact h
      simp [List.dropWhile, h, h2]

theorem trim_map_toLower (s : Str) : trim (s.map Char.toLower) = (trim s).map Char.toLower := by
  unfold trim
  rw [dropWhile_map_toLower, ← List.map_reverse, dropWhile_map_toLower, List.map_reverse]

theorem toLower_eq_of_not_letter (c : Char) (d : Char) (hd : d.toNat < 97)
    (h : c.toLower = d) : c = d := by
  rcases toLower_cases c with e | ⟨_, _, h3, _⟩
  · rw [← e]; exact h
  · rw [h] at h3; omega

/-- The ASCII case mapping meets the conditions of `parseRow_exportable`. -/
theorem asciiCase_stable :
    (∀ s, plainField s → plainField (asciiCase.toLowerCase s)) ∧
    (∀ s, asciiCase.toLowerCase (asciiCase.toLowerCase s) = asciiCase.toLowerCase s) ∧
    asciiCase.toLowerCase "absent".toList = "absent".toList := by
  refine ⟨?_, ?_, by decide⟩
  · rintro s ⟨h1, h2, h3⟩
    refine ⟨?_, ?_, ?_⟩
    · intro h
      obtain ⟨c, hc, e⟩ := List.mem_map.mp h
      exact h1 (toLower_eq_of_not_letter c ',' (by decide) e ▸ hc)
    · intro h
      obtain ⟨c, hc, e⟩ := List.mem_map.mp h
      exact h2 (toLower_eq_of_not_letter c newline (by decide) e ▸ hc)
    · show trim (s.map Char.toLower) = s.map Char.toLower
      rw [trim_map_toLower, h3]
  · intro s
    show (s.map Char.toLower).map Char.toLower = s.map Char.toLower
    rw [List.map_map]
    apply List.map_congr_left
    intro c _
    exact toLower_toLower c

/-! ## Facts about the JSON text -/

theorem hexValue_hexDigit : ∀ n, n < 16 → hexValue (hexDigit n) = some n := by decide

theorem readString_dquote (X : Str) : readString (dquote :: X) = some ([], X) := by
  rw [readString.eq_def]
  simp

theorem readString_plain (c : Char) (X : Str) (h1 : c ≠ dquote) (h2 : c ≠ backslash)
    (h3 : ¬ c.toNat < 0x20) :
    readString (c :: X) = (readString X).map (fun p => (c :: p.1, p.2)) := by
  rw [readString.eq_def]
  simp [h1, h2, h3]

theorem readString_letter (e d : Char) (X : Str) (he : e ≠ 'u') (hd : unescape e = some d) :
    readString (backslash :: e :: X) = (readString X).map (fun p => (d :: p.1, p.2)) := by
  have hb : backslash ≠ dquote := by decide
  rw [readString.eq_def]
  simp [hb, he, hd]

theorem readString_hex (n : Nat) (hn : n < 0x20) (X : Str) :
    readString (backslash :: 'u' :: '0' :: '0' :: hexDigit (n / 16) :: hexDigit (n % 16) :: X)
      = (readString X).map (fun p => (Char.ofNat n :: p.1, p.2)) := by
  have hb : backslash ≠ dquote := by decide
  have h0 : hexValue '0' = some 0 := by decide
  have h1 : hexValue (hexDigit (n / 16)) = some (n / 16) := hexValue_hexDigit _ (by omega)
  have h2 : hexValue (hexDigit (n % 16)) = some (n % 16) := hexValue_hexDigit _ (by omega)
  have hv : ((0 * 16 + 0) * 16 + n / 16) * 16 + n % 16 = n := by omega
  have hs : ¬ (0xD800 ≤ n ∧ n ≤ 0xDFFF) := by omega
  rw [readString.eq_def]
  simp only [hb, if_false, if_true, h0, h1, h2, hv, hs]

theorem readString_escapeChar (c : Char) (X : Str) :
    readString (escapeChar c ++ X) = (readString X).map (fun p => (c :: p.1, p.2)) := by
  unfold escapeChar
  split_ifs with h1 h2 h3 h4 h5 h6 h7 h8
  · subst h1; exact readString_letter _ _ _ (by decide) (by decide)
  · subst h2; exact readString_letter _ _ _ (by decide) (by decide)
  · rw [char_eq_of_toNat c _ h3]; exact readString_letter _ _ _ (by decide) (by decide)
  · rw [char_eq_of_toNat c _ h4]; exact readString_letter _ _ _ (by decide) (by decide)
  · rw [char_eq_of_toNat c _ h5]; exact readString_letter _ _ _ (by decide) (by decide)
  · rw [char_eq_of_toNat c _ h6]; exact readString_letter _ _ _ (by decide) (by decide)
  · rw [char_eq_of_toNat c _ h7]; exact readString_letter _ _ _ (by decide) (by decide)
  · have := readString_hex c.toNat h8 X
    rw [Char.ofNat_toNat] at this
    exact this
  · exact readString_plain c X h1 h2 h8

theorem readString_escaped (s X : Str) :
    readString (s.flatMap escapeChar ++ dquote :: X) = some (s, X) := by
  induction s with
  | nil => exact readString_dquote X
  | cons c cs ih =>
    rw [List.flatMap_cons, List.append_assoc, readString_escapeChar, ih]
    rfl

theorem expect_append (lit X : Str) : expect lit (lit ++ X) = some X := by
  induction lit with
  | nil => cases X <;> rfl
  | cons l lit ih => simp [expect, ih]

theorem readStudent_stringify (r : Student) (X : Str) :
    readStudent (stringifyStudent r ++ X) = some (r, X) := by
  have e1 : stringifyStudent r ++ X =
      "\x7b\"uid\":\"".toList ++ (r.uid.flatMap escapeChar ++ dquote ::
      (",\"name\":\"".toList ++ (r.name.flatMap escapeChar ++ dquote ::
      (",\"contact\":\"".toList ++ (r.contact.flatMap escapeChar ++ dquote ::
      (",\"attendance\":\"".toList ++ (r.attendance.flatMap escapeChar ++ dquote ::
      ("\x7d".toList ++ X)))))))) := by
    simp [stringifyStudent, quoteJSONString]
  rw [e1]
  unfold readStudent
  simp only [expect_append, readString_escaped, Option.some_bind, Option.map_some']


theorem stringifyStudent_length_pos (r : Student) : 0 < (stringifyStudent r).length := by
  simp [stringifyStudent]

theorem joinWith_stringify_length (r : Student) (l : List Student) :
    l.length < (joinWith ',' ((r :: l).map stringifyStudent)).length := by
  induction l generalizing r with
  | nil => simpa [joinWith] using stringifyStudent_length_pos r
  | cons r2 l ih =>
    have := ih r2
    simp only [List.map_cons, joinWith, List.length_append, List.length_cons] at this ⊢
    omega

theorem readStudents_joinWith (r : Student) (l : List Student) (fuel : Nat)
    (h : l.length < fuel) :
    readStudents fuel (joinWith ',' ((r :: l).map stringifyStudent) ++ [']']) = some (r :: l) := by
  induction l generalizing r fuel with
  | nil =>
    obtain ⟨k, rfl⟩ : ∃ k, fuel = k + 1 := ⟨fuel - 1, by simp at h; omega⟩
    simp [joinWith, readStudents, readStudent_stringify]
  | cons r2 l ih =>
    obtain ⟨k, rfl⟩ : ∃ k, fuel = k + 1 := ⟨fuel - 1, by omega⟩
    have hk : l.length < k := by simp at h; omega
    have e : joinWith ',' ((r :: r2 :: l).map stringifyStudent) ++ [']'] =
        stringifyStudent r ++ (',' :: (joinWith ',' ((r2 :: l).map stringifyStudent) ++ [']'])) := by
      simp [joinWith]
    rw [e, readStudents, readStudent_stringify]
    have := ih r2 k hk
    rw [List.map_cons] at this
    simp [this]

/-- Reading back the text written for a record list gives the list. -/
theorem jsonParse_jsonStringify (l : List Student) : jsonParse (jsonStringify l) = some l := by
  cases l with
  | nil => simp [jsonParse, jsonStringify, joinWith]
  | cons r l =>
    have hlen := joinWith_stringify_length r l
    have hne : joinWith ',' ((r :: l).map stringifyStudent) ++ [']'] ≠ [']'] := by
      intro e
      have := congrArg List.length e
      simp only [List.length_append, List.length_singleton] at this
      omega
    simp only [jsonParse, jsonStringify, if_true, hne, if_false]
    exact readStudents_joinWith r l _ (by simp only [List.length_append, List.length_singleton]; omega)

/-- Two record lists with the same JSON text are equal. -/
theorem jsonStringify_injective : Function.Injective jsonStringify := by
  intro a b h
  have := jsonParse_jsonStringify a
  rw [h, jsonParse_jsonStringify] at this
  exact (Option.some.inj this).symm

theorem jsonStringify_ne_nil (l : List Student) : jsonStringify l ≠ [] := by
  simp [jsonStringify]

/-! ## The parser -/

theorem processCSV_of_rows (L : CaseMapping) (csv header : Str) (data : List Str)
    (st : AppState) (h : nonBlankRows csv = header :: data) :
    processCSV L csv st = some (data.map (parseRow L),
      { st with attendanceData := some (jsonStringify (data.map (parseRow L))),
                lastUpdated := .syncedAt }) := by
  unfold processCSV
  rw [h]

theorem processCSV_of_no_rows (L : CaseMapping) (csv : Str) (st : AppState)
    (h : nonBlankRows csv = []) : processCSV L csv st = none := by
  unfold processCSV
  rw [h]

theorem nonBlankRows_eq (csv : Str) :
    nonBlankRows csv = (split newline csv).filter (fun l => !l.all isWhiteSpace) := by
  unfold nonBlankRows
  apply List.filter_congr
  intro l _
  by_cases h : trim l = []
  · have := (trim_eq_nil_iff l).mp h
    simpa [h, List.all_eq_true] using this
  · have h2 : ¬ ∀ c ∈ l, isWhiteSpace c = true := fun a => h ((trim_eq_nil_iff l).mpr a)
    simp only [ne_eq, h, not_false_eq_true, decide_True]
    simpa [List.all_eq_true] using h2

set_option maxRecDepth 100000 in
/-- C1: when the lines of the text (its pieces between line feeds) that are not
made of white space only are a header followed by the rows `data`, `processCSV`
returns exactly `data.length` records, the `i`-th being the record of the `i`-th
row.  The text of the scenario gives the records of A1 and A2, for which
`updateUI` writes `presentCount = 1` and `absentCount = 1`. -/
theorem processCSV_one_record_per_row (L : CaseMapping) (st : AppState) (csv header : Str)
    (data : List Str)
    (hrows : (split newline csv).filter (fun l => !l.all isWhiteSpace) = header :: data) :
    (∃ recs st1, processCSV L csv st = some (recs, st1) ∧
      recs.length = data.length ∧
      ∀ i (h : i < data.length), recs.get? i = some (parseRow L (data.get ⟨i, h⟩))) ∧
    ((processCSV asciiCase
        "UID,Name,Contact,Attendance\nA1,Alice,555-1,present\nA2,Bob,555-2,absent".toList
        AppState.start).map Prod.fst = some scenarioRecords ∧
      scenarioRecords.length = 2 ∧
      (fetchData asciiCase (.response true
        "UID,Name,Contact,Attendance\nA1,Alice,555-1,present\nA2,Bob,555-2,absent".toList)
        AppState.start).map (fun s => (s.students, s.presentCount, s.absentCount)) =
        some (scenarioRecords, 1, 1)) := by
  refine ⟨⟨data.map (parseRow L), { st with
      attendanceData := some (jsonStringify (data.map (parseRow L))),
      lastUpdated := .syncedAt }, ?_, by simp, ?_⟩, by decide, by decide, by decide⟩
  · unfold processCSV
    rw [nonBlankRows_eq, hrows]
  · intro i h
    simp [List.getElem?_eq_getElem h]

set_option maxRecDepth 100000 in
/-- An instance with blank lines between the rows: the text has five lines after
the header line, two of them rows, and two records are returned. -/
theorem processCSV_one_record_per_row_scenario :
    ∃ recs st1,
      processCSV asciiCase
        "UID,Name,Contact,Attendance\n\nA1,Alice,555-1,present\n  \nA2,Bob,555-2,absent\n".toList
        AppState.start = some (recs, st1) ∧
      recs.length = 2 ∧
      recs.get? 0 = some (parseRow asciiCase "A1,Alice,555-1,present".toList) ∧
      recs.get? 1 = some (parseRow asciiCase "A2,Bob,555-2,absent".toList) := by
  obtain ⟨⟨recs, st1, h1, h2, h3⟩, _⟩ :=
    processCSV_one_record_per_row asciiCase AppState.start
      "UID,Name,Contact,Attendance\n\nA1,Alice,555-1,present\n  \nA2,Bob,555-2,absent\n".toList
      "UID,Name,Contact,Attendance".toList
      ["A1,Alice,555-1,present".toList, "A2,Bob,555-2,absent".toList] (by decide)
  exact ⟨recs, st1, h1, h2, h3 0 (by decide), h3 1 (by decide)⟩

set_option maxRecDepth 100000 in
/-- C2 as stated fails: the row `A1,Alice,555-1,late` has a fourth column that
is neither `present` nor `absent` after trimming and lower-casing, and its
record keeps `late` as attendance. -/
theorem unrecognized_attendance_is_kept :
    (split ',' "A1,Alice,555-1,late".toList).get? 3 = some "late".toList ∧
    asciiCase.toLowerCase (trim "late".toList) ≠ "present".toList ∧
    asciiCase.toLowerCase (trim "late".toList) ≠ "absent".toList ∧
    (processCSV asciiCase "UID,Name,Contact,Attendance\nA1,Alice,555-1,late".toList
      AppState.start).map Prod.fst =
      some [⟨"A1".toList, "Alice".toList, "555-1".toList, "late".toList⟩] ∧
    (parseRow asciiCase "A1,Alice,555-1,late".toList).attendance ≠ "absent".toList ∧
    (parseRow asciiCase "A1,Alice,555-1,late".toList).attendance ≠ "present".toList := by
  decide

/-- C2, amended: the record of a row has attendance `absent` when the fourth
column is missing or consists of white space only; otherwise its attendance is
the fourth column trimmed and lower-cased, whatever that text is. -/
theorem parseRow_attendance (L : CaseMapping) (row : Str) (col : Option Str)
    (hcol : (split ',' row).get? 3 = col) :
    (col = none → (parseRow L row).attendance = "absent".toList) ∧
    (∀ v, col = some v → (∀ c ∈ v, isWhiteSpace c = true) →
      (parseRow L row).attendance = "absent".toList) ∧
    (∀ v, col = some v → ¬ (∀ c ∈ v, isWhiteSpace c = true) →
      (parseRow L row).attendance = L.toLowerCase (trim v)) := by
  subst hcol
  refine ⟨?_, ?_, ?_⟩
  · intro h
    simp only [parseRow, h, Option.elim, orElse, if_true]
  · intro v h hv
    have ht : trim v = [] := (trim_eq_nil_iff v).mpr hv
    simp only [parseRow, h, Option.elim, orElse, ht, L.lower_nil, if_true]
  · intro v h hv
    have ht : trim v ≠ [] := fun e => hv ((trim_eq_nil_iff v).mp e)
    have hl : L.toLowerCase (trim v) ≠ [] := fun e => ht (L.nil_of_lower _ e)
    simp only [parseRow, h, Option.elim, orElse, hl, if_false]

set_option maxRecDepth 100000 in
/-- Instances: a row of two columns, a row whose fourth column is blank, and rows
whose fourth column is ` Present ` and `Late`. -/
theorem parseRow_attendance_rows :
    (parseRow asciiCase "A3,Carol".toList).attendance = "absent".toList ∧
    (parseRow asciiCase "A3,Carol,555-3,  ".toList).attendance = "absent".toList ∧
    (parseRow asciiCase "A3,Carol,555-3, Present ".toList).attendance = "present".toList ∧
    (parseRow asciiCase "A3,Carol,555-3,Late".toList).attendance = "late".toList := by
  have h1 := (parseRow_attendance asciiCase "A3,Carol".toList none (by decide)).1 rfl
  have h2 := (parseRow_attendance asciiCase "A3,Carol,555-3,  ".toList (some "  ".toList)
    (by decide)).2.1 _ rfl (by decide)
  have h3 := (parseRow_attendance asciiCase "A3,Carol,555-3, Present ".toList
    (some " Present ".toList) (by decide)).2.2 _ rfl (by decide)
  have h4 := (parseRow_attendance asciiCase "A3,Carol,555-3,Late".toList
    (some "Late".toList) (by decide)).2.2 _ rfl (by decide)
  exact ⟨h1, h2, h3.trans (by decide), h4.trans (by decide)⟩

/-! ## Export and parse -/

theorem foldl_append_eq (f : Student → Str) (l : List Student) (init : Str) :
    l.foldl (fun csv s => csv ++ f s) init = init ++ l.flatMap f := by
  induction l generalizing init with
  | nil => simp
  | cons r l ih => simp [ih, List.append_assoc]

theorem exportCSV_eq (students : List Student) :
    exportCSV students =
      ("UID,Name,Contact,Attendance".toList :: students.map rowText).flatMap
        (fun l => l ++ [newline]) := by
  unfold exportCSV
  rw [foldl_append_eq (fun student => student.uid ++ ',' :: student.name ++ ',' ::
    student.contact ++ ',' :: student.attendance ++ [newline])]
  simp [rowText, List.flatMap_map, List.append_assoc]

theorem split_lines (rows : List Str) (h : ∀ l ∈ rows, newline ∉ l) :
    split newline (rows.flatMap (fun l => l ++ [newline])) = rows ++ [[]] := by
  induction rows with
  | nil => rfl
  | cons l rows ih =>
    have hl : newline ∉ l := h l (by simp)
    have hr : ∀ l ∈ rows, newline ∉ l := fun x hx => h x (List.mem_cons_of_mem _ hx)
    rw [List.flatMap_cons, List.append_assoc, List.singleton_append,
      split_append_sep _ _ _ hl, ih hr]
    rfl

theorem rowText_no_newline (r : Student) (h1 : newline ∉ r.uid) (h2 : newline ∉ r.name)
    (h3 : newline ∉ r.contact) (h4 : newline ∉ r.attendance) : newline ∉ rowText r := by
  have hc : newline ≠ ',' := by decide
  simp [rowText, h1, h2, h3, h4, hc]

theorem trim_rowText_ne_nil (r : Student) : trim (rowText r) ≠ [] := by
  intro h
  have hw := (trim_eq_nil_iff _).mp h ',' (by simp [rowText])
  exact absurd hw (by decide)

theorem split_rowText (r : Student) (h1 : ',' ∉ r.uid) (h2 : ',' ∉ r.name)
    (h3 : ',' ∉ r.contact) (h4 : ',' ∉ r.attendance) :
    split ',' (rowText r) = [r.uid, r.name, r.contact, r.attendance] := by
  unfold rowText
  simp only [List.append_assoc, List.cons_append]
  rw [split_append_sep _ _ _ h1, split_append_sep _ _ _ h2, split_append_sep _ _ _ h3,
    split_of_not_mem _ _ h4]

theorem orElse_self (a : Str) : orElse a [] = a := by
  unfold orElse
  split_ifs with h
  · exact h.symm
  · rfl

theorem parseRow_rowText (L : CaseMapping) (r : Student) (h : exportable L r) :
    parseRow L (rowText r) = r := by
  obtain ⟨⟨u1, _, u3⟩, ⟨n1, _, n3⟩, ⟨c1, _, c3⟩, ⟨a1, _, a3⟩, ane, alow⟩ := h
  have hs := split_rowText r u1 n1 c1 a1
  have ha : orElse (L.toLowerCase r.attendance) "absent".toList = r.attendance := by
    rw [alow]
    simp [orElse, ane]
  simp only [parseRow, hs, List.get?, Option.elim, u3, n3, c3, a3, orElse_self, ha]

theorem nonBlankRows_exportCSV (students : List Student)
    (h : ∀ r ∈ students, newline ∉ rowText r) :
    nonBlankRows (exportCSV students) =
      "UID,Name,Contact,Attendance".toList :: students.map rowText := by
  have hh : newline ∉ "UID,Name,Contact,Attendance".toList := by decide
  have hrows : ∀ l ∈ "UID,Name,Contact,Attendance".toList :: students.map rowText,
      newline ∉ l := by
    intro l hl
    rcases List.mem_cons.mp hl with rfl | hl
    · exact hh
    · obtain ⟨r, hr, rfl⟩ := List.mem_map.mp hl
      exact h r hr
  unfold nonBlankRows
  rw [exportCSV_eq, split_lines _ hrows, List.filter_append, List.filter_cons]
  have h0 : trim "UID,Name,Contact,Attendance".toList ≠ [] := by decide
  have hmap : (students.map rowText).filter (fun row => decide (trim row ≠ [])) =
      students.map rowText := by
    apply List.filter_eq_self.mpr
    intro l hl
    obtain ⟨r, _, rfl⟩ := List.mem_map.mp hl
    simpa using trim_rowText_ne_nil r
  have hnil : [([] : Str)].filter (fun row => decide (trim row ≠ [])) = [] := by decide
  simp only [h0, ne_eq, not_false_eq_true, decide_True, if_true, hmap, hnil, List.append_nil]

set_option maxRecDepth 100000 in
/-- C3 as stated fails: the one-record snapshot whose name is ` Alice`, with a
leading blank, has no comma in any field; the export handler writes it as
`A1, Alice,555-1,present`, and parsing that text gives the name `Alice`.  In the
same way a line feed inside a name splits the record in two, an empty attendance
comes back as `absent`, and the attendance `Present` comes back as `present`. -/
theorem exported_blank_is_trimmed :
    (∀ r ∈ [Student.mk "A1".toList " Alice".toList "555-1".toList "present".toList],
      ',' ∉ r.uid ∧ ',' ∉ r.name ∧ ',' ∉ r.contact ∧ ',' ∉ r.attendance) ∧
    (exportClick { AppState.start with students :=
      [⟨"A1".toList, " Alice".toList, "555-1".toList, "present".toList⟩] }).trace =
      [.download "UID,Name,Contact,Attendance\nA1, Alice,555-1,present\n".toList,
       .showNotification "Data exported successfully".toList .success] ∧
    (processCSV asciiCase "UID,Name,Contact,Attendance\nA1, Alice,555-1,present\n".toList
      AppState.start).map Prod.fst =
      some [⟨"A1".toList, "Alice".toList, "555-1".toList, "present".toList⟩] ∧
    (processCSV asciiCase "UID,Name,Contact,Attendance\nA1, Alice,555-1,present\n".toList
      AppState.start).map Prod.fst ≠
      some [⟨"A1".toList, " Alice".toList, "555-1".toList, "present".toList⟩] ∧
    (processCSV asciiCase
      (exportCSV [⟨"A1".toList, "Al\nice".toList, "555-1".toList, "present".toList⟩])
      AppState.start).map Prod.fst =
      some [⟨"A1".toList, "Al".toList, [], "absent".toList⟩,
            ⟨"ice".toList, "555-1".toList, "present".toList, "absent".toList⟩] ∧
    (processCSV asciiCase
      (exportCSV [⟨"A1".toList, "Alice".toList, "555-1".toList, []⟩])
      AppState.start).map Prod.fst =
      some [⟨"A1".toList, "Alice".toList, "555-1".toList, "absent".toList⟩] ∧
    (processCSV asciiCase
      (exportCSV [⟨"A1".toList, "Alice".toList, "555-1".toList, "Present".toList⟩])
      AppState.start).map Prod.fst =
      some [⟨"A1".toList, "Alice".toList, "555-1".toList, "present".toList⟩] := by
  decide

/-- C3, amended: for a store that is not empty and whose records are all
`exportable` (no comma and no line feed in a field, no white space at the ends
of a field, attendance not empty and already in lower case), the export handler
downloads `exportCSV`, and `processCSV` on that text returns the records of the
store, the same values in the same order. -/
theorem export_then_parse (L : CaseMapping) (st st1 : AppState) (hne : st.students ≠ [])
    (hx : ∀ r ∈ st.students, exportable L r) :
    (exportClick st).trace = st.trace ++
      [.download (exportCSV st.students),
       .showNotification "Data exported successfully".toList .success] ∧
    (processCSV L (exportCSV st.students) st1).map Prod.fst = some st.students := by
  constructor
  · have hlen : st.students.length ≠ 0 := fun e => hne (List.length_eq_zero.mp e)
    simp [exportClick, hlen, showNotification]
  · have hnl : ∀ r ∈ st.students, newline ∉ rowText r := by
      intro r hr
      obtain ⟨⟨_, u2, _⟩, ⟨_, n2, _⟩, ⟨_, c2, _⟩, ⟨_, a2, _⟩, _, _⟩ := hx r hr
      exact rowText_no_newline r u2 n2 c2 a2
    have hmap : (st.students.map rowText).map (parseRow L) = st.students := by
      rw [List.map_map]
      conv_rhs => rw [← List.map_id st.students]
      apply List.map_congr_left
      intro r hr
      simpa using parseRow_rowText L r (hx r hr)
    unfold processCSV
    rw [nonBlankRows_exportCSV _ hnl]
    simp only [Option.map_some', hmap]

set_option maxRecDepth 100000 in
/-- An instance: the two scenario records are exportable, and the text exported
for them parses back to them. -/
theorem export_then_parse_scenario :
    scenarioRecords ≠ [] ∧ (∀ r ∈ scenarioRecords, exportable asciiCase r) ∧
    exportCSV scenarioRecords =
      "UID,Name,Contact,Attendance\nA1,Alice,555-1,present\nA2,Bob,555-2,absent\n".toList ∧
    (processCSV asciiCase (exportCSV scenarioRecords) AppState.start).map Prod.fst =
      some scenarioRecords :=
  ⟨by decide, by decide, by decide,
    (export_then_parse asciiCase { AppState.start with students := scenarioRecords }
      AppState.start (by decide) (by decide)).2⟩

/-! ## Snapshots of the parser are exportable -/

theorem plainField_nil : plainField [] := ⟨by simp, by simp, rfl⟩

theorem plainField_trim (v : Str) (h1 : ',' ∉ v) (h2 : newline ∉ v) : plainField (trim v) :=
  ⟨fun h => h1 ((trim_sublist v).subset h), fun h => h2 ((trim_sublist v).subset h),
    trim_trim v⟩

theorem plainField_column (row : Str) (hrow : newline ∉ row) (i : Nat) :
    plainField (orElse (((split ',' row).get? i).elim [] trim) []) := by
  rw [orElse_self]
  cases h : (split ',' row).get? i with
  | none => exact plainField_nil
  | some v =>
    have hv : v ∈ split ',' row := List.get?_mem h
    exact plainField_trim v (not_mem_of_mem_split _ _ _ hv)
      (fun e => hrow (mem_of_mem_split _ _ _ hv _ e))

/-- The record the parser builds for a row without line feed is `exportable`,
for a case mapping that keeps plain fields plain, maps its own results to
themselves and maps `absent` to itself. -/
theorem parseRow_exportable (L : CaseMapping) (row : Str) (hrow : newline ∉ row)
    (hplain : ∀ s, plainField s → plainField (L.toLowerCase s))
    (hidem : ∀ s, L.toLowerCase (L.toLowerCase s) = L.toLowerCase s)
    (habsent : L.toLowerCase "absent".toList = "absent".toList) :
    exportable L (parseRow L row) := by
  refine ⟨plainField_column row hrow 0, plainField_column row hrow 1,
    plainField_column row hrow 2, ?_⟩
  show plainField (orElse (((split ',' row).get? 3).elim [] _) _) ∧
    orElse (((split ',' row).get? 3).elim [] _) _ ≠ [] ∧
    L.toLowerCase (orElse (((split ',' row).get? 3).elim [] _) _) = orElse _ _
  have hab : plainField "absent".toList ∧ "absent".toList ≠ [] := by decide
  cases h : (split ',' row).get? 3 with
  | none =>
    simp only [Option.elim, orElse, if_true]
    exact ⟨hab.1, hab.2, habsent⟩
  | some v =>
    have hv : v ∈ split ',' row := List.get?_mem h
    have hp : plainField (trim v) := plainField_trim v (not_mem_of_mem_split _ _ _ hv)
      (fun e => hrow (mem_of_mem_split _ _ _ hv _ e))
    simp only [Option.elim, orElse]
    split_ifs with he
    · exact ⟨hab.1, hab.2, habsent⟩
    · exact ⟨hplain _ hp, he, hidem _⟩

/-- Every snapshot the parser returns comes back unchanged from the export
followed by the parser, under the conditions of `parseRow_exportable`. -/
theorem processCSV_exportCSV_processCSV (L : CaseMapping) (csv : Str) (st st1 st2 : AppState)
    (recs : List Student)
    (hplain : ∀ s, plainField s → plainField (L.toLowerCase s))
    (hidem : ∀ s, L.toLowerCase (L.toLowerCase s) = L.toLowerCase s)
    (habsent : L.toLowerCase "absent".toList = "absent".toList)
    (h : processCSV L csv st = some (recs, st1)) :
    (processCSV L (exportCSV recs) st2).map Prod.fst = some recs := by
  cases hrows : nonBlankRows csv with
  | nil => rw [processCSV_of_no_rows L csv st hrows] at h; cases h
  | cons header data =>
    rw [processCSV_of_rows L csv header data st hrows] at h
    have hrecs : recs = data.map (parseRow L) := by
      have := congrArg Prod.fst (Option.some.inj h)
      exact this.symm
    have hx : ∀ r ∈ recs, exportable L r := by
      intro r hr
      rw [hrecs] at hr
      obtain ⟨row, hrow, rfl⟩ := List.mem_map.mp hr
      have hmem : row ∈ split newline csv := by
        have : row ∈ nonBlankRows csv := by rw [hrows]; exact List.mem_cons_of_mem _ hrow
        exact (List.mem_filter.mp this).1
      exact parseRow_exportable L row (not_mem_of_mem_split _ _ _ hmem) hplain hidem habsent
    have hnl : ∀ r ∈ recs, newline ∉ rowText r := by
      intro r hr
      obtain ⟨⟨_, u2, _⟩, ⟨_, n2, _⟩, ⟨_, c2, _⟩, ⟨_, a2, _⟩, _, _⟩ := hx r hr
      exact rowText_no_newline r u2 n2 c2 a2
    have hmap : (recs.map rowText).map (parseRow L) = recs := by
      rw [List.map_map]
      conv_rhs => rw [← List.map_id recs]
      apply List.map_congr_left
      intro r hr
      simpa using parseRow_rowText L r (hx r hr)
    unfold processCSV
    rw [nonBlankRows_exportCSV _ hnl]
    simp only [Option.map_some', hmap]

/-! ## Fetching -/

/-- A fetch whose body parses to the records already in the store: nothing is
rendered and only the sync notification and the status call are traced. -/
theorem fetchData_unchanged (L : CaseMapping) (c header : Str) (data : List Str)
    (st : AppState) (h : nonBlankRows c = header :: data)
    (hs : st.students = data.map (parseRow L)) :
    fetchData L (.response true c) st = some
      { st with isOnline := true,
                attendanceData := some (jsonStringify (data.map (parseRow L))),
                lastUpdated := .syncedAt,
                trace := st.trace ++ [.showNotification "Syncing with Google Sheets...".toList .info,
                  .updateStatus true] } := by
  simp [fetchData, fetchTry, processCSV_of_rows L c header data _ h, showNotification,
    updateStatus, hs]

/-- A fetch whose body parses to other records than those in the store: the
store is replaced, the table is rendered and the update is notified. -/
theorem fetchData_changed (L : CaseMapping) (c header : Str) (data : List Str)
    (st : AppState) (h : nonBlankRows c = header :: data)
    (hs : st.students ≠ data.map (parseRow L)) :
    fetchData L (.response true c) st = some
      { st with students := data.map (parseRow L),
                isOnline := true,
                attendanceData := some (jsonStringify (data.map (parseRow L))),
                lastUpdated := .syncedAt,
                presentCount := ((data.map (parseRow L)).filter
                  (fun s => s.attendance = "present".toList)).length,
                absentCount := (data.map (parseRow L)).length -
                  ((data.map (parseRow L)).filter
                    (fun s => s.attendance = "present".toList)).length,
                tableBody := data.map (parseRow L),
                trace := st.trace ++ [.showNotification "Syncing with Google Sheets...".toList .info,
                  .updateUI, .renderTable (data.map (parseRow L)),
                  .showNotification "Attendance data updated!".toList .success,
                  .updateStatus true] } := by
  have hj : jsonStringify st.students ≠ jsonStringify (data.map (parseRow L)) :=
    fun e => hs (jsonStringify_injective e)
  simp [fetchData, fetchTry, processCSV_of_rows L c header data _ h, showNotification,
    updateStatus, updateUI, renderTable, hj]

/-- A fetch whose body has no line that is not blank runs the `catch` block from
the state in which the `try` block was entered. -/
theorem fetchData_blank (L : CaseMapping) (c : Str) (st : AppState)
    (h : nonBlankRows c = []) :
    fetchData L (.response true c) st = fetchCatch
      { showNotification "Syncing with Google Sheets...".toList .info st with
        lastUpdated := .updating } := by
  simp [fetchData, fetchTry, processCSV_of_no_rows L c _ h]

/-- The `catch` block run again on the same stored text and on the store it
produced: the store stays, `isOnline` stays `false`, and no
`Attendance data updated!` notification is shown. -/
theorem fetchCatch_again (s s1 t : AppState) (h : fetchCatch s = some s1)
    (hd : t.attendanceData = s1.attendanceData) (hst : t.students = s1.students) :
    s1.isOnline = false ∧
    ∃ s2 added, fetchCatch t = some s2 ∧ s2.students = s1.students ∧
      s2.trace = t.trace ++ added ∧
      Effect.showNotification "Attendance data updated!".toList .success ∉ added := by
  unfold fetchCatch at h ⊢
  simp only [updateStatus] at h ⊢
  cases hc : s.attendanceData with
  | none =>
    simp only [hc, showNotification, Option.some.injEq] at h
    subst h
    simp only [hd, showNotification]
    refine ⟨trivial, _, [.consoleError, .updateStatus false,
      .showNotification "Connection failed - no data available".toList .error], rfl, hst, ?_, ?_⟩
    · simp only [List.append_assoc]
      rfl
    · decide
  | some saved =>
    simp only [hc] at h
    by_cases he : saved = []
    · simp only [he, if_true, showNotification, Option.some.injEq] at h
      subst h
      simp only [hd, showNotification, if_true]
      refine ⟨trivial, _, [.consoleError, .updateStatus false,
      .showNotification "Connection failed - no data available".toList .error], rfl, hst, ?_, ?_⟩
      · simp only [List.append_assoc]
        rfl
      · decide
    · simp only [he, if_false] at h
      cases hp : jsonParse saved with
      | none => simp [hp] at h
      | some l =>
        simp only [hp, showNotification, updateUI, renderTable, Option.some.injEq] at h
        subst h
        simp only [hd, he, if_false, hp, showNotification, updateUI, renderTable]
        refine ⟨trivial, _, [.consoleError, .updateStatus false, .updateUI, .renderTable l,
          .showNotification "Using offline data".toList .warning], rfl, rfl, ?_, ?_⟩
        · simp only [List.append_assoc]
          rfl
        · simp

/-- Two fetches in a row that are answered with the same body `c`, whatever `c`
is: when the first one returns, the second one returns, leaves the store as the
first one left it and shows no `Attendance data updated!` notification.  When
the first one ended with `isOnline = true`, so does the second, and it traces
the sync notification and the status call only: it calls neither `updateUI` nor
`renderTable`, and the table and the counters stay as they are. -/
theorem fetch_same_content_twice (L : CaseMapping) (st st1 : AppState) (c : Str)
    (h1 : fetchData L (.response true c) st = some st1) :
    ∃ st2 added,
      fetchData L (.response true c) st1 = some st2 ∧
      st2.students = st1.students ∧
      st2.trace = st1.trace ++ added ∧
      Effect.showNotification "Attendance data updated!".toList .success ∉ added ∧
      (st1.isOnline = true →
        st2.isOnline = true ∧
        added = [.showNotification "Syncing with Google Sheets...".toList .info,
          .updateStatus true] ∧
        st2.tableBody = st1.tableBody ∧
        st2.presentCount = st1.presentCount ∧ st2.absentCount = st1.absentCount) := by
  cases hrows : nonBlankRows c with
  | cons header data =>
    have hst1 : st1.students = data.map (parseRow L) := by
      by_cases hs : st.students = data.map (parseRow L)
      · rw [fetchData_unchanged L c header data st hrows hs] at h1
        have e := Option.some.inj h1
        subst e
        exact hs
      · rw [fetchData_changed L c header data st hrows hs] at h1
        have e := Option.some.inj h1
        subst e
        rfl
    refine ⟨_, _, fetchData_unchanged L c header data st1 hrows hst1, rfl, rfl, by decide, ?_⟩
    intro _
    exact ⟨rfl, rfl, rfl, rfl, rfl⟩
  | nil =>
    rw [fetchData_blank L c st hrows] at h1
    rw [fetchData_blank L c st1 hrows]
    obtain ⟨hoff, s2, added, h2, h3, h4, h5⟩ := fetchCatch_again _ st1
      { showNotification "Syncing with Google Sheets...".toList .info st1 with
        lastUpdated := .updating } h1 rfl rfl
    refine ⟨s2, .showNotification "Syncing with Google Sheets...".toList .info :: added,
      h2, h3, ?_, ?_, ?_⟩
    · rw [h4]
      simp [showNotification]
    · intro hm
      rcases List.mem_cons.mp hm with e | e
      · exact absurd e (by decide)
      · exact h5 e
    · intro hon
      rw [hoff] at hon
      cases hon

set_option maxRecDepth 100000 in
/-- An instance: the scenario text fetched twice from the initial state.  Both
fetches end with `isOnline = true`, and the second one traces the sync
notification and the status call only. -/
theorem fetch_same_content_twice_scenario :
    ∃ st1 st2,
      fetchData asciiCase (.response true
        "UID,Name,Contact,Attendance\nA1,Alice,555-1,present\nA2,Bob,555-2,absent".toList)
        AppState.start = some st1 ∧
      st1.isOnline = true ∧
      fetchData asciiCase (.response true
        "UID,Name,Contact,Attendance\nA1,Alice,555-1,present\nA2,Bob,555-2,absent".toList)
        st1 = some st2 ∧
      st2.isOnline = true ∧
      st2.students = st1.students ∧ st2.tableBody = st1.tableBody ∧
      st2.presentCount = st1.presentCount ∧ st2.absentCount = st1.absentCount ∧
      st2.trace = st1.trace ++
        [.showNotification "Syncing with Google Sheets...".toList .info,
         .updateStatus true] := by
  have hon : (fetchData asciiCase (.response true
      "UID,Name,Contact,Attendance\nA1,Alice,555-1,present\nA2,Bob,555-2,absent".toList)
      AppState.start).map (fun s => s.isOnline) = some true := by decide
  cases h : fetchData asciiCase (.response true
      "UID,Name,Contact,Attendance\nA1,Alice,555-1,present\nA2,Bob,555-2,absent".toList)
      AppState.start with
  | none => rw [h] at hon; cases hon
  | some st1 =>
    rw [h] at hon
    have hon1 : st1.isOnline = true := Option.some.inj hon
    obtain ⟨st2, added, h2, h3, h4, _, h6⟩ := fetch_same_content_twice asciiCase _ st1 _ h
    obtain ⟨h7, h8, h9, h10, h11⟩ := h6 hon1
    exact ⟨st1, st2, rfl, hon1, h2, h7, h3, h9, h10, h11, by rw [h4, h8]⟩

set_option maxRecDepth 100000 in
/-- C4: the claim says that the second of two fetches answered with the same
text does not render again.  The code does render again when the text has no
line that is not blank and a snapshot is stored: `rows[0]` is `undefined`, the
statement that computes the unused `headers` throws, and the `catch` block
loads the stored snapshot and calls `updateUI`.  Here the first fetch stores
the scenario records; the second fetch, answered with an `ok` response and an
empty body, leaves them in the store with `isOnline = false`; the third fetch,
answered in the same way, leaves the store as it is, shows no
`Attendance data updated!` notification, and calls `updateUI` and
`renderTable` again. -/
theorem fetch_empty_body_twice_rerenders :
    (((fetchData asciiCase (.response true
        "UID,Name,Contact,Attendance\nA1,Alice,555-1,present\nA2,Bob,555-2,absent".toList)
        AppState.start).bind
      (fetchData asciiCase (.response true []))).map
        (fun s => (s.students, s.isOnline))) =
      some (scenarioRecords, false) ∧
    ((((fetchData asciiCase (.response true
        "UID,Name,Contact,Attendance\nA1,Alice,555-1,present\nA2,Bob,555-2,absent".toList)
        AppState.start).bind
      (fetchData asciiCase (.response true []))).bind
      (fetchData asciiCase (.response true []))).map (fun s => s.students)) =
      some scenarioRecords ∧
    ((((fetchData asciiCase (.response true
        "UID,Name,Contact,Attendance\nA1,Alice,555-1,present\nA2,Bob,555-2,absent".toList)
        AppState.start).bind
      (fetchData asciiCase (.response true []))).bind
      (fetchData asciiCase (.response true []))).map (fun s => s.trace)) =
    ((fetchData asciiCase (.response true
        "UID,Name,Contact,Attendance\nA1,Alice,555-1,present\nA2,Bob,555-2,absent".toList)
        AppState.start).bind
      (fetchData asciiCase (.response true []))).map (fun s => s.trace ++
        [.showNotification "Syncing with Google Sheets...".toList .info,
         .consoleError, .updateStatus false, .updateUI, .renderTable scenarioRecords,
         .showNotification "Using offline data".toList .warning]) := by
  decide

/-- C5: when the fetch attempt fails, `isOnline` becomes `false`.  With nothing
stored under `"attendanceData"` the store is left as it is and the last
notification is `Connection failed - no data available` with severity `error`;
with the text of a record list stored there, the store becomes that list, which
is rendered, and the last notification is `Using offline data` with severity
`warning`. -/
theorem fetch_failure_falls_back (L : CaseMapping) (net : FetchOutcome) (st : AppState)
    (hfail : net.failed) :
    (st.attendanceData = none →
      ∃ st1, fetchData L net st = some st1 ∧ st1.isOnline = false ∧
        st1.students = st.students ∧
        st1.trace = st.trace ++
          [.showNotification "Syncing with Google Sheets...".toList .info,
           .consoleError, .updateStatus false,
           .showNotification "Connection failed - no data available".toList .error]) ∧
    (∀ saved, st.attendanceData = some (jsonStringify saved) →
      ∃ st1, fetchData L net st = some st1 ∧ st1.isOnline = false ∧
        st1.students = saved ∧ st1.tableBody = saved ∧
        st1.trace = st.trace ++
          [.showNotification "Syncing with Google Sheets...".toList .info,
           .consoleError, .updateStatus false, .updateUI, .renderTable saved,
           .showNotification "Using offline data".toList .warning]) := by
  have htry : ∀ s, fetchTry L net s = none := by
    intro s
    cases net with
    | rejected => rfl
    | response ok body =>
      have : ok = false := hfail
      subst this
      rfl
  have e : fetchData L net st = fetchCatch
      { showNotification "Syncing with Google Sheets...".toList .info st with
        lastUpdated := .updating } := by
    simp only [fetchData, htry]
  rw [e]
  constructor
  · intro hnone
    simp only [fetchCatch, showNotification, updateStatus, hnone]
    exact ⟨_, rfl, by simp⟩
  · intro saved hsaved
    simp only [fetchCatch, showNotification, updateStatus, hsaved, jsonStringify_ne_nil,
      if_false, jsonParse_jsonStringify]
    exact ⟨_, rfl, by simp [updateUI, renderTable]⟩

set_option maxRecDepth 100000 in
/-- Instances: a rejected fetch from the initial state, with nothing stored, and
a rejected fetch with the text of three records stored. -/
theorem fetch_failure_falls_back_scenario :
    FetchOutcome.rejected.failed ∧
    (∃ st1, fetchData asciiCase .rejected AppState.start = some st1 ∧ st1.isOnline = false ∧
      st1.students = [] ∧
      st1.trace =
        [.showNotification "Syncing with Google Sheets...".toList .info,
         .consoleError, .updateStatus false,
         .showNotification "Connection failed - no data available".toList .error]) ∧
    (∃ st1, fetchData asciiCase .rejected
        { AppState.start with attendanceData := some (jsonStringify threeRecords) } = some st1 ∧
      st1.isOnline = false ∧ st1.students = threeRecords ∧ st1.students.length = 3 ∧
      st1.trace =
        [.showNotification "Syncing with Google Sheets...".toList .info,
         .consoleError, .updateStatus false, .updateUI, .renderTable threeRecords,
         .showNotification "Using offline data".toList .warning]) := by
  refine ⟨trivial, ?_, ?_⟩
  · obtain ⟨st1, h1, h2, h3, h4⟩ :=
      (fetch_failure_falls_back asciiCase .rejected AppState.start trivial).1 rfl
    exact ⟨st1, h1, h2, h3, h4⟩
  · obtain ⟨st1, h1, h2, h3, _, h4⟩ :=
      (fetch_failure_falls_back asciiCase .rejected
        { AppState.start with attendanceData := some (jsonStringify threeRecords) } trivial).2
        threeRecords rfl
    exact ⟨st1, h1, h2, h3, by rw [h3]; rfl, h4⟩

/-! ## Deletion followed by a fetch -/

/-- C10: when the store holds the records `processCSV` returns for `c` and some
record carries the uid `u`, a confirmed `deleteStudent(u)` followed by a fetch
that returns `c` puts those records back in the store and under
`"attendanceData"`, renders them, and shows `Attendance data updated!`. -/
theorem delete_then_fetch_restores (L : CaseMapping) (st st0 : AppState) (c u : Str)
    (hstore : (processCSV L c st0).map Prod.fst = some st.students)
    (hu : ∃ r ∈ st.students, r.uid = u) :
    ∃ st2, fetchData L (.response true c) (deleteStudent true u st) = some st2 ∧
      (∀ r ∈ (deleteStudent true u st).students, r.uid ≠ u) ∧
      st2.students = st.students ∧
      (processCSV L c st0).map Prod.fst = some st2.students ∧
      st2.attendanceData = some (jsonStringify st2.students) ∧
      st2.tableBody = st2.students ∧
      st2.trace = (deleteStudent true u st).trace ++
        [.showNotification "Syncing with Google Sheets...".toList .info,
         .updateUI, .renderTable st2.students,
         .showNotification "Attendance data updated!".toList .success,
         .updateStatus true] := by
  cases hrows : nonBlankRows c with
  | nil =>
    rw [processCSV_of_no_rows L c st0 hrows] at hstore
    cases hstore
  | cons header data =>
    rw [processCSV_of_rows L c header data st0 hrows] at hstore
    have hs : data.map (parseRow L) = st.students := by simpa using hstore
    have hdel : (deleteStudent true u st).students = st.students.filter (fun s => s.uid ≠ u) := by
      simp [deleteStudent, showNotification, updateUI, renderTable]
    have hne : (deleteStudent true u st).students ≠ data.map (parseRow L) := by
      rw [hdel, hs]
      intro e
      obtain ⟨r, hr, hru⟩ := hu
      have := (List.filter_eq_self.mp e) r hr
      simp [hru] at this
    refine ⟨_, fetchData_changed L c header data _ hrows hne, ?_, hs, ?_⟩
    · intro r hr
      rw [hdel] at hr
      simpa using (List.mem_filter.mp hr).2
    · rw [processCSV_of_rows L c header data st0 hrows]
      simp

set_option maxRecDepth 100000 in
/-- An instance: `A1` is deleted from the two scenario records and the scenario
text is fetched again. -/
theorem delete_then_fetch_restores_scenario :
    (processCSV asciiCase
      "UID,Name,Contact,Attendance\nA1,Alice,555-1,present\nA2,Bob,555-2,absent".toList
      AppState.start).map Prod.fst = some scenarioRecords ∧
    (∃ r ∈ scenarioRecords, r.uid = "A1".toList) ∧
    ∃ st2, fetchData asciiCase (.response true
        "UID,Name,Contact,Attendance\nA1,Alice,555-1,present\nA2,Bob,555-2,absent".toList)
        (deleteStudent true "A1".toList { AppState.start with students := scenarioRecords }) =
        some st2 ∧
      st2.students = scenarioRecords ∧
      st2.attendanceData = some (jsonStringify scenarioRecords) := by
  obtain ⟨st2, h1, _, h3, _, h5, _⟩ :=
    delete_then_fetch_restores asciiCase { AppState.start with students := scenarioRecords }
      AppState.start
      "UID,Name,Contact,Attendance\nA1,Alice,555-1,present\nA2,Bob,555-2,absent".toList
      "A1".toList (by decide) (by decide)
  exact ⟨by decide, by decide, st2, h1, h3, by rw [h5, h3]⟩

/-! ## Deletion -/

set_option maxRecDepth 100000 in
/-- C6: a confirmed `deleteStudent(uid)` leaves in the store exactly the records
whose uid is not `uid`, in their order, and stores the JSON text of that
reduced store under `"attendanceData"`.  Deleting `A1` from the two scenario
records leaves one record in the store and one record in the stored text. -/
theorem deleteStudent_confirmed (st : AppState) (uid : Str) :
    (deleteStudent true uid st).students = st.students.filter (fun s => s.uid ≠ uid) ∧
    (deleteStudent true uid st).students.Sublist st.students ∧
    (∀ r, r ∈ (deleteStudent true uid st).students ↔ r ∈ st.students ∧ r.uid ≠ uid) ∧
    (deleteStudent true uid st).attendanceData =
      some (jsonStringify (deleteStudent true uid st).students) ∧
    (deleteStudent true uid st).attendanceData.bind jsonParse =
      some (deleteStudent true uid st).students ∧
    ((deleteStudent true "A1".toList
        { AppState.start with students := scenarioRecords }).students =
        [⟨"A2".toList, "Bob".toList, "555-2".toList, "absent".toList⟩] ∧
      (deleteStudent true "A1".toList
        { AppState.start with students := scenarioRecords }).students.length = 1 ∧
      ((deleteStudent true "A1".toList
        { AppState.start with students := scenarioRecords }).attendanceData.bind
          jsonParse).map List.length = some 1) := by
  have hs : (deleteStudent true uid st).students = st.students.filter (fun s => s.uid ≠ uid) := by
    simp [deleteStudent, showNotification, updateUI, renderTable]
  have hc : (deleteStudent true uid st).attendanceData =
      some (jsonStringify (deleteStudent true uid st).students) := by
    simp [deleteStudent, showNotification, updateUI, renderTable]
  refine ⟨hs, ?_, ?_, hc, ?_, by decide, by decide, by decide⟩
  · rw [hs]
    exact List.filter_sublist _
  · intro r
    rw [hs]
    simp [List.mem_filter]
  · rw [hc]
    exact jsonParse_jsonStringify _

/-- C7: when no record of the store carries `uid`, `deleteStudent(uid)` leaves
the store as it is, whether the deletion is confirmed or not. -/
theorem deleteStudent_absent_uid (st : AppState) (uid : Str) (confirmed : Bool)
    (h : ∀ r ∈ st.students, r.uid ≠ uid) :
    (deleteStudent confirmed uid st).students = st.students := by
  cases confirmed with
  | false => rfl
  | true =>
    have hs : (deleteStudent true uid st).students =
        st.students.filter (fun s => s.uid ≠ uid) := by
      simp [deleteStudent, showNotification, updateUI, renderTable]
    rw [hs]
    apply List.filter_eq_self.mpr
    intro r hr
    simpa using h r hr

set_option maxRecDepth 100000 in
/-- Instances: the uid `Z9`, which neither scenario record carries, with the
deletion confirmed and not confirmed. -/
theorem deleteStudent_absent_uid_scenario :
    (∀ r ∈ scenarioRecords, r.uid ≠ "Z9".toList) ∧
    (deleteStudent true "Z9".toList
      { AppState.start with students := scenarioRecords }).students = scenarioRecords ∧
    (deleteStudent false "Z9".toList
      { AppState.start with students := scenarioRecords }).students = scenarioRecords :=
  ⟨by decide,
    deleteStudent_absent_uid { AppState.start with students := scenarioRecords } _ true
      (by decide),
    deleteStudent_absent_uid { AppState.start with students := scenarioRecords } _ false
      (by decide)⟩

/-! ## Search -/

set_option maxRecDepth 100000 in
/-- C8: the claim says that a record is passed to the renderer when the term as
entered occurs in its contact as stored.  The code lower-cases the term once
and compares that with the contact, which, unlike the name and the uid, it does
not lower-case.  With the term `X1` the record whose contact is `X1` is not
passed to the renderer, although `X1` as entered occurs in that contact; and the
record whose contact is `x1` is passed, although `X1` as entered occurs neither
in its contact nor, ignoring case, in its name or uid. -/
theorem filterStudents_lowers_term_for_contact :
    "X1".toList <:+: "X1".toList ∧
    (filterStudents asciiCase "X1".toList
      { AppState.start with students :=
        [⟨"7".toList, "bob".toList, "X1".toList, "present".toList⟩] }).tableBody = [] ∧
    ¬ "X1".toList <:+: "x1".toList ∧
    ¬ asciiCase.toLowerCase "X1".toList <:+: asciiCase.toLowerCase "bob".toList ∧
    ¬ asciiCase.toLowerCase "X1".toList <:+: asciiCase.toLowerCase "7".toList ∧
    (filterStudents asciiCase "X1".toList
      { AppState.start with students :=
        [⟨"7".toList, "bob".toList, "x1".toList, "present".toList⟩] }).tableBody =
      [⟨"7".toList, "bob".toList, "x1".toList, "present".toList⟩] := by
  decide

/-- What `filterStudents` computes: the list it passes to the renderer is, in
the order of the store, exactly the records for which the lower-cased term
occurs in the lower-cased name, or in the lower-cased uid, or in the contact as
stored. -/
theorem filterStudents_passes_matches (L : CaseMapping) (st : AppState) (term : Str) :
    (filterStudents L term st).trace = st.trace ++
      [.renderTable (filterStudents L term st).tableBody] ∧
    (filterStudents L term st).tableBody.Sublist st.students ∧
    (filterStudents L term st).tableBody = st.students.filter (fun r =>
      decide (L.toLowerCase term <:+: L.toLowerCase r.name ∨
        L.toLowerCase term <:+: L.toLowerCase r.uid ∨
        L.toLowerCase term <:+: r.contact)) ∧
    (∀ r, r ∈ (filterStudents L term st).tableBody ↔ r ∈ st.students ∧
      (L.toLowerCase term <:+: L.toLowerCase r.name ∨
        L.toLowerCase term <:+: L.toLowerCase r.uid ∨
        L.toLowerCase term <:+: r.contact)) ∧
    (filterStudents L term st).students = st.students := by
  have hb : (filterStudents L term st).tableBody = st.students.filter (fun r =>
      decide (L.toLowerCase term <:+: L.toLowerCase r.name ∨
        L.toLowerCase term <:+: L.toLowerCase r.uid ∨
        L.toLowerCase term <:+: r.contact)) := by
    simp only [filterStudents, renderTable]
    apply List.filter_congr
    intro r _
    have e : ∀ a b : Str, includes a b = decide (b <:+: a) := by
      intro a b
      rw [Bool.eq_iff_iff]
      simp [includes_iff]
    simp [e, Bool.or_assoc]
  refine ⟨by simp [filterStudents, renderTable], ?_, hb, ?_, rfl⟩
  · rw [hb]
    exact List.filter_sublist _
  · intro r
    rw [hb]
    simp [List.mem_filter]

/-- C9: with the empty search term `filterStudents` passes the whole store to
the renderer, every record as it is and in the order of the store. -/
theorem filterStudents_empty_term (L : CaseMapping) (st : AppState) :
    (filterStudents L [] st).tableBody = st.students ∧
    (filterStudents L [] st).trace = st.trace ++ [.renderTable st.students] ∧
    (filterStudents L [] st).students = st.students := by
  have hb : (filterStudents L [] st).tableBody = st.students := by
    simp only [filterStudents, renderTable, L.lower_nil]
    apply List.filter_eq_self.mpr
    intro r _
    have : includes (L.toLowerCase r.name) [] = true := (includes_iff _ _).mpr ⟨[], L.toLowerCase r.name, by simp⟩
    simp [this]
  refine ⟨hb, ?_, rfl⟩
  have ht : (filterStudents L [] st).trace =
      st.trace ++ [.renderTable (filterStudents L [] st).tableBody] := by
    simp [filterStudents, renderTable]
  rw [ht, hb]

end IOTMini
